import Mathlib

/-!
Verification of the `runner` package (deps.go): a shallow embedding of the
action logger (`testLog`, `StartTestLog`, `StopTestLog`), the single-slot
pattern-match cache (`MatchString`), and the corpus shape check
(`CheckCorpus`), with theorems settling the spec claims about them.
-/

namespace Testdeps

/-! Definitions: action logger (testLog). -/

/-- A buffered writer over an underlying sink, as produced by
`bufio.NewWriter(w)` in `StartTestLog`: `sink` identifies the underlying
`io.Writer` handed to `StartTestLog`, `buf` holds the bytes written to the
buffered writer but not yet flushed to the sink.  The buffer is modelled as
unbounded (bufio's fixed 4096-byte capacity and its flush-on-full are not
modelled; the claims concern the logical buffer/flush behaviour). -/
structure BufWriter where
  sink : Nat
  buf : String
deriving Repr, DecidableEq

/-- The process-wide mutable state touched by the logger: the fields `w` and
`set` of the package-level `var log testLog`, together with the observable
environment: `setLoggerCalls` counts registrations with the process-wide
logger registry, `flushed` is the chronological list of chunks successfully
written through to each sink, and `failingSinks` is the set of sink ids whose
underlying `Write` fails.  The mutex `log.mu` is not part of the sequential
state. -/
structure LogWorld where
  w : Option BufWriter
  set : Bool
  setLoggerCalls : Nat
  flushed : List (Nat × String)
  failingSinks : List Nat
deriving Repr, DecidableEq

/-- Append a string to the buffered writer (`l.w.WriteString` /
`l.w.WriteByte`). -/
def BufWriter.writeString (bw : BufWriter) (s : String) : BufWriter :=
  { bw with buf := bw.buf ++ s }

/-- `strings.Contains(name, "\n")`: since the needle is the single character
`'\n'`, substring containment is character membership. -/
def containsNewline (name : String) : Bool :=
  name.data.contains '\n'

/-- `testLog.add(op, name)`: drops the entry if `name` contains a newline or
is empty; drops it if no writer is installed (`l.w == nil`); otherwise writes
`op`, a space, `name` and a newline to the buffered writer. -/
def TestLog.add (op name : String) (st : LogWorld) : LogWorld :=
  if containsNewline name ∨ name = "" then st
  else
    match st.w with
    | none => st
    | some bw => { st with w := some (bw.writeString (op ++ " " ++ name ++ "\n")) }

/-- `testLog.Getenv(key)`. -/
def TestLog.Getenv (key : String) (st : LogWorld) : LogWorld :=
  TestLog.add "getenv" key st

/-- `testLog.Open(name)`. -/
def TestLog.Open (name : String) (st : LogWorld) : LogWorld :=
  TestLog.add "open" name st

/-- `testLog.Stat(name)`. -/
def TestLog.Stat (name : String) (st : LogWorld) : LogWorld :=
  TestLog.add "stat" name st

/-- `testLog.Chdir(name)`. -/
def TestLog.Chdir (name : String) (st : LogWorld) : LogWorld :=
  TestLog.add "chdir" name st

/-- `TestDeps.StartTestLog(w)`: installs `bufio.NewWriter(w)` as the active
writer; on the first-ever call (`!log.set`) it also sets `log.set`, registers
the logger with the process-wide registry and writes the header line
`"# test log\n"` through the new writer.  `SetLogger` itself is not in the
sources; Modelled from the spec: the process-wide logger registry is "a
single external slot accepting exactly one registered logger", so a
registration is recorded by incrementing `setLoggerCalls`. -/
def TestDeps.StartTestLog (sink : Nat) (st : LogWorld) : LogWorld :=
  if st.set then
    { st with w := some { sink := sink, buf := "" } }
  else
    { st with w := some { sink := sink, buf := "# test log\n" },
              set := true,
              setLoggerCalls := st.setLoggerCalls + 1 }

/-- `TestDeps.StopTestLog()`: flushes the buffered writer, clears `log.w`
and returns the flush error.  When `log.w` is `nil` the Go code dereferences
a nil `*bufio.Writer` and panics; this is modelled as the result `none`.
Flushing an empty buffer performs no underlying write and succeeds
(`bufio.Writer.Flush` returns `nil` without calling `Write` when the buffer
is empty); flushing a non-empty buffer to a failing sink returns the write
error. -/
def TestDeps.StopTestLog (st : LogWorld) : Option (LogWorld × Option String) :=
  match st.w with
  | none => none
  | some bw =>
    if bw.buf = "" then some ({ st with w := none }, none)
    else if bw.sink ∈ st.failingSinks then
      some ({ st with w := none }, some "write error")
    else
      some ({ st with w := none, flushed := st.flushed ++ [(bw.sink, bw.buf)] }, none)

/-! Definitions: pattern match cache (MatchString). -/

/-- The package-level cache `var matchPat string; var matchRe *regexp.Regexp`.
`Re` is the type of compiled matchers (the external `regexp` package's
compiled form), kept abstract because `regexp` is an external collaborator. -/
structure MatchCache (Re : Type) where
  matchPat : String
  matchRe : Option Re
deriving Repr, DecidableEq

/-- `TestDeps.MatchString(pat, str)`, parameterized over the external regexp
engine: `compile` models `regexp.Compile` (which returns `nil, err` on
failure) and `reMatch` models `(*regexp.Regexp).MatchString`.  The Go
condition `matchRe == nil || matchPat != pat` selects recompilation; on
compile failure `matchPat` has already been set to `pat` and `matchRe` to
`nil`, and the error is returned without evaluating `str`. -/
def TestDeps.MatchString {Re : Type} (compile : String → Except String Re)
    (reMatch : Re → String → Bool) (pat str : String) (c : MatchCache Re) :
    Except String Bool × MatchCache Re :=
  match c.matchRe with
  | some re =>
    if c.matchPat = pat then (Except.ok (reMatch re str), c)
    else
      match compile pat with
      | Except.error e => (Except.error e, { matchPat := pat, matchRe := none })
      | Except.ok re2 => (Except.ok (reMatch re2 str), { matchPat := pat, matchRe := some re2 })
  | none =>
    match compile pat with
    | Except.error e => (Except.error e, { matchPat := pat, matchRe := none })
    | Except.ok re2 => (Except.ok (reMatch re2 str), { matchPat := pat, matchRe := some re2 })

/-- A concrete toy regexp engine used to instantiate the parameterized model
on concrete inputs: a compiled matcher is the pattern itself, a lone `"("`
fails to compile, and matching is string equality. -/
def toyCompile (p : String) : Except String String :=
  if p = "(" then Except.error "error parsing regexp: missing closing )" else Except.ok p

/-- Matching for the toy engine: the candidate equals the pattern. -/
def toyMatch (re s : String) : Bool := re = s

/-! Definitions: corpus shape check (CheckCorpus). -/

/-- Runtime types as produced by `reflect.TypeOf` on corpus values; `TNil`
models the `nil` interface type. -/
inductive GoTy where
  | TInt
  | TString
  | TBool
  | TBytes
  | TNil
deriving Repr, DecidableEq

/-- Runtime values (`[]any` elements) carried by a corpus entry, restricted
to the value kinds the claims exercise. -/
inductive GoVal where
  | VInt (i : Int)
  | VString (s : String)
  | VBool (b : Bool)
  | VBytes (bs : List Nat)
  | VNil
deriving Repr, DecidableEq

/-- `reflect.TypeOf(v)`. -/
def typeOf : GoVal → GoTy
  | GoVal.VInt _ => GoTy.TInt
  | GoVal.VString _ => GoTy.TString
  | GoVal.VBool _ => GoTy.TBool
  | GoVal.VBytes _ => GoTy.TBytes
  | GoVal.VNil => GoTy.TNil

/-- The two error shapes returned by `CheckCorpus`: a count mismatch names
the actual and wanted lengths, a type mismatch names the full actual type
sequence and the full expected type sequence. -/
inductive CorpusError where
  | countMismatch (got want : Nat)
  | typeMismatch (got want : List GoTy)
deriving Repr, DecidableEq

/-- The second loop of `CheckCorpus`: is there a position where the actual
type differs from the expected one?  The Go loop indexes `valsT[i]` for
`i < len(types)` only after the length check, so it never goes out of
bounds; the model is a total function. -/
def tysMismatch : List GoTy → List GoTy → Bool
  | t :: ts, u :: us => t ≠ u || tysMismatch ts us
  | _, _ => false

/-- `TestDeps.CheckCorpus(vals, types)`: count-mismatch error when the
lengths differ, type-mismatch error (naming both full type sequences) when
some positional runtime type disagrees, `none` (nil error) otherwise. -/
def TestDeps.CheckCorpus (vals : List GoVal) (types : List GoTy) : Option CorpusError :=
  if vals.length ≠ types.length then
    some (CorpusError.countMismatch vals.length types.length)
  else
    let valsT := vals.map typeOf
    if tysMismatch valsT types then some (CorpusError.typeMismatch valsT types)
    else none

/-! Definitions: concrete logger states used to evaluate the theorems. -/

/-- A logger state right after a first successful start and a flush: armed,
registered once, with an installed empty writer over sink 0. -/
def logReady : LogWorld :=
  { w := some { sink := 0, buf := "" }, set := true, setLoggerCalls := 1,
    flushed := [], failingSinks := [] }

/-- A logger state with one buffered record entry not yet flushed. -/
def logBuffered : LogWorld :=
  { w := some { sink := 0, buf := "open /tmp/x\n" }, set := true, setLoggerCalls := 1,
    flushed := [], failingSinks := [] }

/-- The logger state at process start: no writer, not armed, nothing
registered or flushed. -/
def logFresh : LogWorld :=
  { w := none, set := false, setLoggerCalls := 0, flushed := [], failingSinks := [] }

/-! Helper lemmas about testLog.add. -/

/-- An empty name or a name containing a newline makes `add` a no-op. -/
theorem add_invalid (op n : String) (st : LogWorld)
    (h : n = "" ∨ containsNewline n = true) : TestLog.add op n st = st := by
  unfold TestLog.add
  rw [if_pos]
  tauto

/-- With no writer installed, `add` is a no-op for every name. -/
theorem add_noWriter (op n : String) (st : LogWorld) (h : st.w = none) :
    TestLog.add op n st = st := by
  unfold TestLog.add
  split
  · rfl
  · rw [h]

/-- With a writer installed and a valid name, `add` appends exactly the line
`op ++ " " ++ n ++ "\n"` to the writer's buffer and changes nothing else. -/
theorem add_writes (op n : String) (st : LogWorld) (bw : BufWriter)
    (h1 : n ≠ "") (h2 : containsNewline n = false) (h3 : st.w = some bw) :
    TestLog.add op n st =
      { st with w := some { bw with buf := bw.buf ++ (op ++ " " ++ n ++ "\n") } } := by
  unfold TestLog.add
  rw [if_neg, h3]
  · rfl
  · simp [h1, h2]

/-- `add` never touches the armed flag. -/
theorem add_set_eq (op n : String) (st : LogWorld) : (TestLog.add op n st).set = st.set := by
  unfold TestLog.add
  split
  · rfl
  · split <;> rfl

/-! Helper lemmas about StartTestLog and StopTestLog. -/

/-- A fold of `StartTestLog` calls over an already-armed state keeps the
armed flag and performs no further registration. -/
theorem startTestLog_fold_armed (sinks : List Nat) (st : LogWorld) (h : st.set = true) :
    (sinks.foldl (fun s k => TestDeps.StartTestLog k s) st).set = true ∧
    (sinks.foldl (fun s k => TestDeps.StartTestLog k s) st).setLoggerCalls =
      st.setLoggerCalls := by
  induction sinks generalizing st with
  | nil => exact ⟨h, rfl⟩
  | cons k rest ih =>
    simp only [List.foldl_cons]
    have hstep : (TestDeps.StartTestLog k st).set = true ∧
        (TestDeps.StartTestLog k st).setLoggerCalls = st.setLoggerCalls := by
      unfold TestDeps.StartTestLog
      rw [if_pos h]
      exact ⟨h, rfl⟩
    obtain ⟨h1, h2⟩ := hstep
    obtain ⟨h3, h4⟩ := ih _ h1
    exact ⟨h3, h4.trans h2⟩

/-- `StopTestLog` on a state with no writer models the nil dereference. -/
theorem stopTestLog_none (st : LogWorld) (h : st.w = none) :
    TestDeps.StopTestLog st = none := by
  unfold TestDeps.StopTestLog
  rw [h]

/-- The three normal outcomes of `StopTestLog` with a writer installed. -/
theorem stopTestLog_some (st : LogWorld) (bw : BufWriter) (h : st.w = some bw) :
    TestDeps.StopTestLog st =
      if bw.buf = "" then some ({ st with w := none }, none)
      else if bw.sink ∈ st.failingSinks then some ({ st with w := none }, some "write error")
      else some ({ st with w := none, flushed := st.flushed ++ [(bw.sink, bw.buf)] }, none) := by
  unfold TestDeps.StopTestLog
  rw [h]

/-- Every normal return of `StopTestLog` keeps the armed flag and clears the
writer slot. -/
theorem stopTestLog_set (st st' : LogWorld) (e : Option String)
    (h : TestDeps.StopTestLog st = some (st', e)) : st'.set = st.set ∧ st'.w = none := by
  cases hw : st.w with
  | none => rw [stopTestLog_none st hw] at h; exact absurd h (by simp)
  | some bw =>
    rw [stopTestLog_some st bw hw] at h
    split at h
    · obtain ⟨rfl, rfl⟩ := Prod.mk.injEq .. ▸ Option.some.injEq .. ▸ h
      exact ⟨rfl, rfl⟩
    · split at h <;>
      · obtain ⟨rfl, rfl⟩ := Prod.mk.injEq .. ▸ Option.some.injEq .. ▸ h
        exact ⟨rfl, rfl⟩

/-! Helper lemma about MatchString. -/

/-- After any `MatchString` call the cached pattern string is the requested
pattern: the cache-hit branch requires it, and both recompilation branches
store it. -/
theorem matchString_snd_pat {Re : Type} (compile : String → Except String Re)
    (reMatch : Re → String → Bool) (pat str : String) (c : MatchCache Re) :
    (TestDeps.MatchString compile reMatch pat str c).2.matchPat = pat := by
  unfold TestDeps.MatchString
  cases c.matchRe with
  | none => cases compile pat <;> rfl
  | some re =>
    dsimp only
    split
    · rename_i hpat
      exact hpat
    · cases compile pat <;> rfl

/-! Helper lemma about tysMismatch. -/

/-- For equal-length type lists, `tysMismatch` holds exactly when some
position disagrees. -/
theorem tysMismatch_iff (ts : List GoTy) : ∀ us : List GoTy, ts.length = us.length →
    (tysMismatch ts us = true ↔
      ∃ i, ∃ (hi : i < ts.length) (hu : i < us.length), ts.get ⟨i, hi⟩ ≠ us.get ⟨i, hu⟩) := by
  induction ts with
  | nil =>
    intro us h
    cases us with
    | nil => simp [tysMismatch]
    | cons u us => simp at h
  | cons t ts ih =>
    intro us h
    cases us with
    | nil => simp at h
    | cons u us =>
      have hlen : ts.length = us.length := by simpa using h
      constructor
      · intro hmis
        simp only [tysMismatch, Bool.or_eq_true, decide_eq_true_eq] at hmis
        rcases hmis with hne | hrec
        · exact ⟨0, by simp, by simp, by simpa using hne⟩
        · obtain ⟨i, hi, hu, hne⟩ := (ih us hlen).mp hrec
          exact ⟨i + 1, by simpa using hi, by simpa using hu, by simpa using hne⟩
      · intro hex
        obtain ⟨i, hi, hu, hne⟩ := hex
        simp only [tysMismatch, Bool.or_eq_true, decide_eq_true_eq]
        cases i with
        | zero => exact Or.inl (by simpa using hne)
        | succ n =>
          refine Or.inr ((ih us hlen).mpr ⟨n, by simpa using hi, by simpa using hu, ?_⟩)
          simpa using hne

/-! Claim theorems. -/

/-- C1: for every record operation (Getenv, Open, Stat, Chdir) with name
argument `n`: if `n` is empty or contains a newline the call is a no-op; if
the writer slot is absent the call is silently dropped; otherwise exactly
the line `"<op> <name>\n"` is appended to the buffered writer, with `<op>`
being getenv, open, stat, or chdir respectively. -/
theorem C1_record_ops (st : LogWorld) (n : String) :
    ((n = "" ∨ containsNewline n = true) →
      TestLog.Getenv n st = st ∧ TestLog.Open n st = st ∧
      TestLog.Stat n st = st ∧ TestLog.Chdir n st = st) ∧
    (st.w = none →
      TestLog.Getenv n st = st ∧ TestLog.Open n st = st ∧
      TestLog.Stat n st = st ∧ TestLog.Chdir n st = st) ∧
    (∀ bw, n ≠ "" → containsNewline n = false → st.w = some bw →
      TestLog.Getenv n st =
        { st with w := some { bw with buf := bw.buf ++ ("getenv " ++ n ++ "\n") } } ∧
      TestLog.Open n st =
        { st with w := some { bw with buf := bw.buf ++ ("open " ++ n ++ "\n") } } ∧
      TestLog.Stat n st =
        { st with w := some { bw with buf := bw.buf ++ ("stat " ++ n ++ "\n") } } ∧
      TestLog.Chdir n st =
        { st with w := some { bw with buf := bw.buf ++ ("chdir " ++ n ++ "\n") } }) := by
  refine ⟨fun h => ?_, fun h => ?_, fun bw h1 h2 h3 => ?_⟩
  · exact ⟨add_invalid _ _ _ h, add_invalid _ _ _ h, add_invalid _ _ _ h, add_invalid _ _ _ h⟩
  · exact ⟨add_noWriter _ _ _ h, add_noWriter _ _ _ h, add_noWriter _ _ _ h,
      add_noWriter _ _ _ h⟩
  · refine ⟨?_, ?_, ?_, ?_⟩ <;>
      [rw [TestLog.Getenv, add_writes "getenv" n st bw h1 h2 h3];
       rw [TestLog.Open, add_writes "open" n st bw h1 h2 h3];
       rw [TestLog.Stat, add_writes "stat" n st bw h1 h2 h3];
       rw [TestLog.Chdir, add_writes "chdir" n st bw h1 h2 h3]] <;>
      norm_num [show ("getenv" ++ " " : String) = "getenv " from rfl,
        show ("open" ++ " " : String) = "open " from rfl,
        show ("stat" ++ " " : String) = "stat " from rfl,
        show ("chdir" ++ " " : String) = "chdir " from rfl]

/-- Witness for C1: recording `("open", "/tmp/x")` on a ready logger buffers
exactly the line `"open /tmp/x\n"`. -/
theorem C1_record_ops_witness :
    TestLog.Open "/tmp/x" logReady =
      { logReady with w := some { sink := 0, buf := "open /tmp/x\n" } } := by
  have h := ((C1_record_ops logReady "/tmp/x").2.2 { sink := 0, buf := "" }
    (by decide) (by decide) rfl).2.1
  rw [h]
  decide

/-- C2: the first StartTestLog call sets the one-time flag, registers the
logger exactly once and writes the header `"# test log\n"` as the first
content of the new writer; subsequent calls install a fresh empty buffered
writer with no registration and no header; over any nonempty sequence of
starts from a fresh process exactly one registration happens; and the armed
flag, once true, is never reset by add, StartTestLog or StopTestLog. -/
theorem C2_start_one_time (st : LogWorld) (sink : Nat) :
    (st.set = false →
      TestDeps.StartTestLog sink st =
        { st with w := some { sink := sink, buf := "# test log\n" },
                  set := true, setLoggerCalls := st.setLoggerCalls + 1 }) ∧
    (st.set = true →
      TestDeps.StartTestLog sink st = { st with w := some { sink := sink, buf := "" } }) ∧
    (∀ sinks : List Nat, st.set = false → st.setLoggerCalls = 0 → sinks ≠ [] →
      (sinks.foldl (fun s k => TestDeps.StartTestLog k s) st).set = true ∧
      (sinks.foldl (fun s k => TestDeps.StartTestLog k s) st).setLoggerCalls = 1) ∧
    (st.set = true →
      (∀ op n, (TestLog.add op n st).set = true) ∧
      (TestDeps.StartTestLog sink st).set = true ∧
      (∀ st' e, TestDeps.StopTestLog st = some (st', e) → st'.set = true)) := by
  refine ⟨fun h => ?_, fun h => ?_, fun sinks h0 hc hne => ?_, fun h => ⟨?_, ?_, ?_⟩⟩
  · unfold TestDeps.StartTestLog
    rw [if_neg]
    simp [h]
  · unfold TestDeps.StartTestLog
    rw [if_pos h]
  · match sinks, hne with
    | k :: rest, _ =>
      simp only [List.foldl_cons]
      have h1 : TestDeps.StartTestLog k st =
          { st with w := some { sink := k, buf := "# test log\n" },
                    set := true, setLoggerCalls := st.setLoggerCalls + 1 } := by
        unfold TestDeps.StartTestLog
        rw [if_neg]
        simp [h0]
      rw [h1]
      have hfold := startTestLog_fold_armed rest
        { st with w := some { sink := k, buf := "# test log\n" },
                  set := true, setLoggerCalls := st.setLoggerCalls + 1 } rfl
      obtain ⟨ha, hb⟩ := hfold
      refine ⟨ha, hb.trans ?_⟩
      simp [hc]
  · exact fun op n => (add_set_eq op n st).trans h
  · unfold TestDeps.StartTestLog
    rw [if_pos h]
    exact h
  · intro st' e hstop
    obtain ⟨h1, -⟩ := stopTestLog_set st st' e hstop
    exact h1.trans h

/-- Witness for C2: two successive starts from a fresh process leave the
logger armed with exactly one registration. -/
theorem C2_start_one_time_witness :
    (([0, 1] : List Nat).foldl (fun s k => TestDeps.StartTestLog k s) logFresh).set = true ∧
    (([0, 1] : List Nat).foldl (fun s k => TestDeps.StartTestLog k s) logFresh).setLoggerCalls
      = 1 :=
  (C2_start_one_time logFresh 0).2.2.1 [0, 1] rfl rfl (by decide)

/-- C3: StopTestLog flushes the buffered writer, clears the writer slot and
returns the flush error (nil on success); the slot is cleared even when the
flush fails, and afterwards every record call is silently dropped. -/
theorem C3_stop_flush (st : LogWorld) (bw : BufWriter) (h : st.w = some bw) :
    (∀ st' e, TestDeps.StopTestLog st = some (st', e) →
      st'.w = none ∧ ∀ op n, TestLog.add op n st' = st') ∧
    (bw.buf = "" → TestDeps.StopTestLog st = some ({ st with w := none }, none)) ∧
    (bw.buf ≠ "" → bw.sink ∈ st.failingSinks →
      TestDeps.StopTestLog st = some ({ st with w := none }, some "write error")) ∧
    (bw.buf ≠ "" → bw.sink ∉ st.failingSinks →
      TestDeps.StopTestLog st =
        some ({ st with w := none, flushed := st.flushed ++ [(bw.sink, bw.buf)] }, none)) := by
  refine ⟨fun st' e hstop => ?_, fun hbuf => ?_, fun hbuf hfail => ?_, fun hbuf hok => ?_⟩
  · obtain ⟨-, hw'⟩ := stopTestLog_set st st' e hstop
    exact ⟨hw', fun op n => add_noWriter op n st' hw'⟩
  · rw [stopTestLog_some st bw h, if_pos hbuf]
  · rw [stopTestLog_some st bw h, if_neg hbuf, if_pos hfail]
  · rw [stopTestLog_some st bw h, if_neg hbuf, if_neg hok]

/-- Witness for C3: stopping a logger with one buffered line flushes that
line to the sink, clears the slot and returns no error. -/
theorem C3_stop_flush_witness :
    TestDeps.StopTestLog logBuffered =
      some ({ logBuffered with w := none, flushed := [(0, "open /tmp/x\n")] }, none) := by
  have h := (C3_stop_flush logBuffered { sink := 0, buf := "open /tmp/x\n" } rfl).2.2.2
    (by decide) (by decide)
  rw [h]
  decide

/-- C4: a MatchString call whose pattern differs from the cached one (or
with nothing cached) recompiles and replaces both cache fields, and when
compilation succeeds or the matcher was already cached it returns the
boolean match result with a nil error. -/
theorem C4_match_cache {Re : Type} (compile : String → Except String Re)
    (reMatch : Re → String → Bool) (pat str : String) (c : MatchCache Re) :
    (∀ re, (c.matchRe = none ∨ c.matchPat ≠ pat) → compile pat = Except.ok re →
      TestDeps.MatchString compile reMatch pat str c =
        (Except.ok (reMatch re str), { matchPat := pat, matchRe := some re })) ∧
    (∀ re, c.matchRe = some re → c.matchPat = pat →
      TestDeps.MatchString compile reMatch pat str c = (Except.ok (reMatch re str), c)) := by
  constructor
  · intro re hmiss hok
    unfold TestDeps.MatchString
    cases hre : c.matchRe with
    | none => rw [hok]
    | some re0 =>
      have hne : c.matchPat ≠ pat := by
        rcases hmiss with h | h
        · rw [hre] at h; exact absurd h (by simp)
        · exact h
      dsimp only
      rw [if_neg hne, hok]
  · intro re hre hpat
    unfold TestDeps.MatchString
    rw [hre]
    dsimp only
    rw [if_pos hpat]

/-- Witness for C4: matching `"abc"` against itself from an empty cache
compiles, caches and returns true with no error. -/
theorem C4_match_cache_witness :
    TestDeps.MatchString toyCompile toyMatch "abc" "abc" { matchPat := "", matchRe := none } =
      (Except.ok true, { matchPat := "abc", matchRe := some "abc" }) := by
  have h := (C4_match_cache toyCompile toyMatch "abc" "abc"
    { matchPat := "", matchRe := none }).1 "abc" (Or.inl rfl) rfl
  rw [h]
  rfl

/-- C5: a MatchString call whose pattern fails to compile returns the
compilation error without evaluating the candidate, leaving the cache with
the failed pattern and no matcher; any subsequent call with a pattern that
compiles (including a retry of the same pattern) recompiles rather than
treating the failure as a cache hit, and succeeds. -/
theorem C5_compile_error {Re : Type} (compile : String → Except String Re)
    (reMatch : Re → String → Bool) (pat str : String) (c : MatchCache Re) (e : String)
    (hfail : compile pat = Except.error e) :
    ((c.matchRe = none ∨ c.matchPat ≠ pat) →
      TestDeps.MatchString compile reMatch pat str c =
        (Except.error e, { matchPat := pat, matchRe := none })) ∧
    (∀ pat2 str2 re2, compile pat2 = Except.ok re2 →
      TestDeps.MatchString compile reMatch pat2 str2 { matchPat := pat, matchRe := none } =
        (Except.ok (reMatch re2 str2), { matchPat := pat2, matchRe := some re2 })) := by
  constructor
  · intro hmiss
    unfold TestDeps.MatchString
    cases hre : c.matchRe with
    | none => rw [hfail]
    | some re0 =>
      have hne : c.matchPat ≠ pat := by
        rcases hmiss with h | h
        · rw [hre] at h; exact absurd h (by simp)
        · exact h
      dsimp only
      rw [if_neg hne, hfail]
  · intro pat2 str2 re2 hok
    exact (C4_match_cache compile reMatch pat2 str2 { matchPat := pat, matchRe := none }).1
      re2 (Or.inl rfl) hok

/-- Witness for C5: compiling the invalid pattern `"("` returns an error and
leaves no matcher cached, and a following valid-pattern call succeeds. -/
theorem C5_compile_error_witness :
    TestDeps.MatchString toyCompile toyMatch "(" "abc" { matchPat := "", matchRe := none } =
      (Except.error "error parsing regexp: missing closing )",
       { matchPat := "(", matchRe := none }) ∧
    TestDeps.MatchString toyCompile toyMatch "x" "x" { matchPat := "(", matchRe := none } =
      (Except.ok true, { matchPat := "x", matchRe := some "x" }) := by
  have h := C5_compile_error toyCompile toyMatch "(" "abc"
    { matchPat := "", matchRe := none } "error parsing regexp: missing closing )" rfl
  constructor
  · exact h.1 (Or.inl rfl)
  · have h2 := h.2 "x" "x" "x" rfl
    rw [h2]
    rfl

/-- C6: the cache is single-slot and holds the most recently requested
pattern: after matching P1 and then P2 ≠ P1 (with P2 compiling), the cache
holds P2's pattern string and compiled matcher, and the second call's result
depends only on P2's matcher, not on P1 or the earlier cache. -/
theorem C6_single_slot {Re : Type} (compile : String → Except String Re)
    (reMatch : Re → String → Bool) (P1 P2 s1 s2 : String) (c : MatchCache Re) (re2 : Re)
    (hne : P1 ≠ P2) (h2 : compile P2 = Except.ok re2) :
    TestDeps.MatchString compile reMatch P2 s2
        (TestDeps.MatchString compile reMatch P1 s1 c).2 =
      (Except.ok (reMatch re2 s2), { matchPat := P2, matchRe := some re2 }) := by
  have hpat := matchString_snd_pat compile reMatch P1 s1 c
  exact (C4_match_cache compile reMatch P2 s2 _).1 re2
    (Or.inr (by rw [hpat]; exact hne)) h2

/-- Witness for C6: matching `"x"`, then `"abc"`, leaves the cache holding
`"abc"`'s matcher and yields `"abc"`'s match result. -/
theorem C6_single_slot_witness :
    TestDeps.MatchString toyCompile toyMatch "abc" "abc"
        (TestDeps.MatchString toyCompile toyMatch "x" "y"
          { matchPat := "", matchRe := none }).2 =
      (Except.ok true, { matchPat := "abc", matchRe := some "abc" }) := by
  have h := C6_single_slot toyCompile toyMatch "x" "abc" "y" "abc"
    { matchPat := "", matchRe := none } "abc" (by decide) rfl
  rw [h]
  rfl

/-- C7: CheckCorpus returns a count-mismatch error naming the actual and
wanted lengths when the lengths differ; otherwise a type-mismatch error
naming the full actual and expected type sequences when some positional
runtime type disagrees; otherwise nil.  The model is a total function, so it
never panics. -/
theorem C7_check_corpus (vals : List GoVal) (types : List GoTy) :
    (vals.length ≠ types.length →
      TestDeps.CheckCorpus vals types =
        some (CorpusError.countMismatch vals.length types.length)) ∧
    (vals.length = types.length →
      ((∃ i, ∃ (hv : i < vals.length) (ht : i < types.length),
          typeOf (vals.get ⟨i, hv⟩) ≠ types.get ⟨i, ht⟩) →
        TestDeps.CheckCorpus vals types =
          some (CorpusError.typeMismatch (vals.map typeOf) types)) ∧
      ((∀ i (hv : i < vals.length) (ht : i < types.length),
          typeOf (vals.get ⟨i, hv⟩) = types.get ⟨i, ht⟩) →
        TestDeps.CheckCorpus vals types = none)) := by
  refine ⟨fun hne => ?_, fun hlen => ⟨fun hex => ?_, fun hall => ?_⟩⟩
  · unfold TestDeps.CheckCorpus
    rw [if_pos hne]
  · unfold TestDeps.CheckCorpus
    rw [if_neg (by simp [hlen])]
    have hlen' : (vals.map typeOf).length = types.length := by simpa using hlen
    have hmis : tysMismatch (vals.map typeOf) types = true := by
      rw [tysMismatch_iff (vals.map typeOf) types hlen']
      obtain ⟨i, hv, ht, hne⟩ := hex
      exact ⟨i, by simpa using hv, ht, by simpa using hne⟩
    rw [if_pos hmis]
  · unfold TestDeps.CheckCorpus
    rw [if_neg (by simp [hlen])]
    have hlen' : (vals.map typeOf).length = types.length := by simpa using hlen
    have hmis : tysMismatch (vals.map typeOf) types = false := by
      rw [Bool.eq_false_iff]
      intro hmis
      obtain ⟨i, hi, hu, hne⟩ := (tysMismatch_iff (vals.map typeOf) types hlen').mp hmis
      exact hne (by simpa using hall i (by simpa using hi) hu)
    rw [if_neg (by simp [hmis])]

/-- Witness for C7: the spec's three examples, evaluated concretely. -/
theorem C7_check_corpus_witness :
    TestDeps.CheckCorpus [GoVal.VInt 1, GoVal.VString "a"] [GoTy.TInt, GoTy.TString] = none ∧
    TestDeps.CheckCorpus [GoVal.VInt 1] [GoTy.TInt, GoTy.TString] =
      some (CorpusError.countMismatch 1 2) ∧
    TestDeps.CheckCorpus [GoVal.VInt 1, GoVal.VInt 2] [GoTy.TInt, GoTy.TString] =
      some (CorpusError.typeMismatch [GoTy.TInt, GoTy.TInt] [GoTy.TInt, GoTy.TString]) := by
  refine ⟨?_, ?_, ?_⟩
  · exact (C7_check_corpus [GoVal.VInt 1, GoVal.VString "a"] [GoTy.TInt, GoTy.TString]).2
      rfl |>.2 (by decide)
  · exact (C7_check_corpus [GoVal.VInt 1] [GoTy.TInt, GoTy.TString]).1 (by decide)
  · have h := (C7_check_corpus [GoVal.VInt 1, GoVal.VInt 2] [GoTy.TInt, GoTy.TString]).2
      rfl |>.1 ⟨1, by decide, by decide, by decide⟩
    rw [h]
    rfl

/-- C9: calling StopTestLog while the writer slot is absent dereferences the
nil writer and panics (modelled as the result `none`) instead of returning
an error; returning normally requires an installed writer. -/
theorem C9_stop_nil_panics (st : LogWorld) :
    (st.w = none → TestDeps.StopTestLog st = none) ∧
    (∀ r, TestDeps.StopTestLog st = some r → st.w ≠ none) := by
  refine ⟨fun h => stopTestLog_none st h, fun r hr hw => ?_⟩
  rw [stopTestLog_none st hw] at hr
  exact absurd hr (by simp)

/-- Witness for C9: stopping a fresh logger (no writer ever installed)
panics. -/
theorem C9_stop_nil_panics_witness :
    TestDeps.StopTestLog logFresh = none :=
  (C9_stop_nil_panics logFresh).1 rfl

/-- C10: StartTestLog replaces any previously installed buffered writer
without flushing it: nothing is written to any sink by the call, the result
is the same as if no writer had been installed, and on an armed state the
old writer (with everything buffered since its last flush) is simply
replaced by a fresh empty one. -/
theorem C10_start_discards (st : LogWorld) (sink : Nat) :
    (TestDeps.StartTestLog sink st).flushed = st.flushed ∧
    TestDeps.StartTestLog sink st = TestDeps.StartTestLog sink { st with w := none } ∧
    (∀ bw, st.w = some bw → st.set = true →
      TestDeps.StartTestLog sink st = { st with w := some { sink := sink, buf := "" } }) := by
  refine ⟨?_, ?_, fun bw hw hset => ?_⟩
  · unfold TestDeps.StartTestLog
    split <;> rfl
  · unfold TestDeps.StartTestLog
    rcases hs : st.set <;> simp [hs]
  · unfold TestDeps.StartTestLog
    rw [if_pos hset]

/-- Witness for C10: restarting over a logger holding a buffered line
discards that line without flushing it anywhere. -/
theorem C10_start_discards_witness :
    TestDeps.StartTestLog 1 logBuffered =
      { logBuffered with w := some { sink := 1, buf := "" } } :=
  (C10_start_discards logBuffered 1).2.2 { sink := 0, buf := "open /tmp/x\n" } rfl rfl

end Testdeps
